import Mathlib

/-!
Shallow embedding of the document-analysis orchestration system:
the aggregator state machine (src/services/aggregator/main.py),
the worker message handlers (src/services/*/app/rabbit_worker.py,
src/services/contract_extractor/handlers/extraction.py) and the
document slicer's section serializer
(src/services/document_slicer/app/pipeline.py).

Python dicts are modelled as insertion-ordered association lists,
Python sets of strings as duplicate-free lists with membership-based
insertion, JSON values as an inductive type, and Python string
truthiness explicitly.  Strings manipulated by the slicer are modelled
as lists of characters so that strip/join reasoning is elementary.
-/

set_option autoImplicit false

namespace Compress

/-! ### Python dict as insertion-ordered association list -/

/-- Lookup in a Python dict: first entry with the given key. -/
def dictFind? {α : Type} : List (String × α) → String → Option α
  | [], _ => none
  | kv :: rest, k => if kv.1 = k then some kv.2 else dictFind? rest k

/-- Python `d.get(k, dflt)`. -/
def dictGet {α : Type} (d : List (String × α)) (k : String) (dflt : α) : α :=
  (dictFind? d k).getD dflt

/-- Python `d[k] = v`: update in place if present, else append at the end. -/
def dictSet {α : Type} : List (String × α) → String → α → List (String × α)
  | [], k, v => [(k, v)]
  | kv :: rest, k, v => if kv.1 = k then (k, v) :: rest else kv :: dictSet rest k v

/-- Python `d.pop(k, None)`: drop the entry with the given key, if any. -/
def dictPop {α : Type} : List (String × α) → String → List (String × α)
  | [], _ => []
  | kv :: rest, k => if kv.1 = k then rest else kv :: dictPop rest k

/-! ### Python set of strings -/

/-- Add an element to a Python set modelled as a duplicate-free list. -/
def setInsert (s : List String) (x : String) : List String :=
  if x ∈ s then s else x :: s

/-- Python `s.update(t)`. -/
def setUnion (s t : List String) : List String :=
  t.foldl setInsert s

/-- Python `set(xs)`. -/
def setOf (xs : List String) : List String :=
  setUnion [] xs

/-! ### Python string truthiness -/

/-- Truthiness of an optional string: `None` and the empty string are falsy. -/
def strTruthy : Option String → Bool
  | none => false
  | some s => if s = "" then false else true

/-- Python `a or b` on optional strings. -/
def pyOr (a b : Option String) : Option String :=
  if strTruthy a then a else b

/-! ### JSON values -/

/-- JSON payload values carried by broker messages. -/
inductive Json where
  | null
  | bool (b : Bool)
  | num (n : Int)
  | str (s : String)
  | arr (elems : List Json)
  | obj (fields : List (String × Json))

/-- Field lookup on a JSON object, `none` on any other shape. -/
def jsonGet : Json → String → Option Json
  | Json.obj fields, k => dictFind? fields k
  | _, _ => none

/-- Truthiness of a JSON value under Python rules. -/
def jsonTruthy : Json → Bool
  | Json.null => false
  | Json.bool b => b
  | Json.num n => if n = 0 then false else true
  | Json.str s => if s = "" then false else true
  | Json.arr elems => !elems.isEmpty
  | Json.obj fields => !fields.isEmpty

/-- Python `a or b` on optional JSON values. -/
def pyOrJson (a b : Option Json) : Option Json :=
  match a with
  | some j => if jsonTruthy j then a else b
  | none => b

end Compress

namespace Compress.Aggregator

/-! ### Aggregator (src/services/aggregator/main.py) -/

/-- Per-task record of the aggregator (class `AggregationState`). -/
structure AggregationState where
  expected : List String
  reply_to : Option String
  results : List (String × Json)

/-- A final envelope published by `_publish_final` to the task's reply queue. -/
structure Emission where
  queue : String
  task_id : String
  result : List (String × Json)

/-- The aggregator's state table `self.states`. -/
abbrev States := List (String × AggregationState)

/-- `Aggregator._merge_results`: four fixed keys with empty-object defaults,
overlaid by the received results in insertion order. -/
def merge_results (state : AggregationState) : List (String × Json) :=
  let merged : List (String × Json) :=
    [("ai_legal", Json.obj []), ("ai_econom", Json.obj []),
     ("sb_ai", Json.obj []), ("contract_extractor", Json.obj [])]
  state.results.foldl (fun acc kv => dictSet acc kv.1 kv.2) merged

/-- `Aggregator._publish_final`: skip when `reply_to` is falsy, otherwise
publish the merged envelope to the reply queue. -/
def publish_final (task_id : String) (state : AggregationState) : List Emission :=
  match state.reply_to with
  | none => []
  | some r =>
      if r = "" then []
      else [{ queue := r, task_id := task_id, result := merge_results state }]

/-- `Aggregator._ensure_state`: fetch or create the per-task state, updating
`reply_to` when truthy and unioning a truthy expected set.  Returns the
updated table together with the state the handler goes on to mutate. -/
def ensure_state (states : States) (task_id : String) (reply_to : Option String)
    (expected : Option (List String) := none) : States × AggregationState :=
  match dictFind? states task_id with
  | some state =>
      let state := if strTruthy reply_to then { state with reply_to := reply_to } else state
      let state :=
        match expected with
        | some e => if e = [] then state else { state with expected := setUnion state.expected e }
        | none => state
      (dictSet states task_id state, state)
  | none =>
      let new_state : AggregationState :=
        { expected := expected.getD [], reply_to := reply_to, results := [] }
      (dictSet states task_id new_state, new_state)

/-- `Aggregator._handle_init`: resolve the task id (body first, then the
correlation id), then ensure state with the incoming expected set.  Never
emits. -/
def handle_init (states : States) (body_task_id correlation_id : Option String)
    (expected_services : List String) (body_reply_to msg_reply_to : Option String) :
    States :=
  match pyOr body_task_id correlation_id with
  | none => states
  | some task_id =>
      if task_id = "" then states
      else
        (ensure_state states task_id (pyOr body_reply_to msg_reply_to)
          (some (setOf expected_services))).1

/-- `Aggregator._handle_result`: resolve task id (correlation id first) and
service tag; store the payload, drain the service from the expected set, and
when the expected set is empty publish the final envelope and drop the
state. -/
def handle_result (states : States) (correlation_id body_task_id service : Option String)
    (payload : Option Json) (body_reply_to msg_reply_to : Option String) :
    States × List Emission :=
  match pyOr correlation_id body_task_id, service with
  | some task_id, some svc =>
      if task_id = "" ∨ svc = "" then (states, [])
      else
        let ensured := ensure_state states task_id (pyOr body_reply_to msg_reply_to)
        let state := ensured.2
        let state := { state with results := dictSet state.results svc (payload.getD (Json.obj [])) }
        let state :=
          if svc ∈ state.expected then { state with expected := state.expected.erase svc }
          else state
        let states2 := dictSet ensured.1 task_id state
        if state.expected = [] then (dictPop states2 task_id, publish_final task_id state)
        else (states2, [])
  | _, _ => (states, [])

/-- A message consumed by the aggregator, from the init queue or the results
queue, with body fields and broker message properties. -/
inductive AggMsg where
  | init (body_task_id correlation_id : Option String) (expected_services : List String)
      (body_reply_to msg_reply_to : Option String)
  | result (correlation_id body_task_id service : Option String) (payload : Option Json)
      (body_reply_to msg_reply_to : Option String)

/-- Dispatch one message to the matching handler. -/
def step (states : States) : AggMsg → States × List Emission
  | AggMsg.init bt c es br mr => (handle_init states bt c es br mr, [])
  | AggMsg.result c bt s p br mr => handle_result states c bt s p br mr

/-- Process a sequence of messages starting from a given state table,
collecting all final-envelope emissions in order. -/
def runFrom (states : States) (msgs : List AggMsg) : States × List Emission :=
  msgs.foldl (fun acc m => let out := step acc.1 m; (out.1, acc.2 ++ out.2)) (states, [])

/-- Process a sequence of messages starting from the empty state table. -/
def run (msgs : List AggMsg) : States × List Emission :=
  runFrom [] msgs

end Compress.Aggregator

namespace Compress

/-! ### Worker message handlers -/

/-- A message published by a worker: the target queue and the JSON body. -/
structure Publication where
  queue : String
  body : Json

/-- A failure raised by a worker's domain logic: either a framework
`HTTPException` carrying a detail string, or a generic exception message. -/
inductive DomainFailure where
  | httpError (detail : String)
  | exc (message : String)

end Compress

namespace Compress.AiLegal

/-- The four fields of a successful legal review
(src/services/ai_legal/app/rabbit_worker.py). -/
structure LegalReview where
  overall_score : Json
  html_report : String
  inaccuracy : Json
  red_flags : Json

/-- `handle_message` of the ai_legal worker, parameterized by the outcome of
its domain logic (`pipeline.prepare_from_payload` plus
`reviewer.evaluate_sections`): on success publish the review fields, on
failure publish an error payload; either way exactly one result message goes
to the results queue.  When `parts` is not a dict, nothing is published. -/
def handle_message (parts_is_dict : Bool)
    (domain : Except DomainFailure LegalReview) : List Publication :=
  if !parts_is_dict then []
  else
    let response_payload : List (String × Json) :=
      match domain with
      | Except.ok r =>
          [("overall_score", r.overall_score), ("html", Json.str r.html_report),
           ("inaccuracy", r.inaccuracy), ("red_flags", r.red_flags)]
      | Except.error (DomainFailure.httpError d) => [("error", Json.str d)]
      | Except.error (DomainFailure.exc m) =>
          [("error", Json.str ("ai_legal failed: " ++ m))]
    [{ queue := "aggregation_results",
       body := Json.obj [("service", Json.str "ai_legal"),
                         ("payload", Json.obj response_payload)] }]

end Compress.AiLegal

namespace Compress.AiEconom

/-- `handle_message` of the ai_econom worker
(src/services/ai_econom/app/rabbit_worker.py), parameterized by the outcome
of its domain logic (`analyzer.parse_spec` plus `analyzer.analyze`).  The
handler has no exception guard: a domain failure propagates out of the
message scope and nothing is published.  On success it publishes the result
to the results queue and, when a seller is truthy, a follow-up work item to
the sb queue. -/
def handle_message (correlation_id : Option String) (parts : List (String × Json))
    (domain : Except String (List (String × Json))) : List Publication :=
  match domain with
  | Except.error _ => []
  | Except.ok result =>
      let response : Publication :=
        { queue := "aggregation_results",
          body := Json.obj [("service", Json.str "ai_econom"),
                            ("payload", Json.obj result)] }
      let seller := pyOrJson (dictFind? parts "part_15") (dictFind? result "seller")
      match seller with
      | some j =>
          if jsonTruthy j then
            [response,
             { queue := "sb_queue",
               body := Json.obj [("task_id", match correlation_id with
                                             | some t => Json.str t
                                             | none => Json.null),
                                 ("seller", j)] }]
          else [response]
      | none => [response]

end Compress.AiEconom

namespace Compress.ContractExtractor

/-- The result of an external SB counterparty check
(src/services/contract_extractor/app/services/sb_check_service.py). -/
structure SbCheckResult where
  company_name : String
  globas_score : Json
  good_count : Int
  bad_count : Int
  html_report : String

/-- The default sb payload built at the top of `_attach_sb_check`
(src/services/contract_extractor/handlers/extraction.py): status 0 and empty
fields.  It has no "reason" field. -/
def sb_stub : List (String × Json) :=
  [("status", Json.num 0), ("company_name", Json.str ""),
   ("globas_score", Json.null), ("good_count", Json.num 0),
   ("bad_count", Json.num 0), ("html_report", Json.str "")]

/-- Python `s.strip()` on a Lean string (the seller check strips ASCII
whitespace; the character class is defined with the slicer model below). -/
def seller_of (payload : List (String × Json)) : Option String :=
  match dictGet payload "result" (Json.obj []) with
  | Json.obj fields =>
      match dictFind? fields "seller" with
      | some (Json.str s) =>
          if s = "" then none
          else if (s.toList.dropWhile Char.isWhitespace) = [] then none
          else some s
      | _ => none
  | _ => none

/-- `_attach_sb_check`: read `payload["result"]["seller"]` defensively; when
it is a truthy, non-blank string run the external SB check (replacing the
stub on success, keeping it when the check raises), otherwise keep the stub;
finally store the sb payload under the `sb_ai` key of the worker's own
payload. -/
def attach_sb_check (analyze_company : String → Option SbCheckResult)
    (payload : List (String × Json)) : List (String × Json) :=
  let sb_payload : List (String × Json) :=
    match seller_of payload with
    | some s =>
        match analyze_company s with
        | some r =>
            [("status", Json.num 1), ("company_name", Json.str r.company_name),
             ("globas_score", r.globas_score), ("good_count", Json.num r.good_count),
             ("bad_count", Json.num r.bad_count), ("html_report", Json.str r.html_report)]
        | none => sb_stub
    | none => sb_stub
  dictSet payload "sb_ai" (Json.obj sb_payload)

/-- `handle_message` of the contract_extractor worker
(src/services/contract_extractor/app/rabbit_worker.py), parameterized by the
outcome of `qa_sections` before `_attach_sb_check` (LLM question answering).
When `sections` is falsy nothing is published; when the QA step raises, the
exception propagates and nothing is published; otherwise the sb check is
attached to the QA result and exactly one message tagged
`contract_extractor` goes to the results queue.  The worker never publishes
to the sb queue. -/
def handle_message (sections_truthy : Bool)
    (qa : Except DomainFailure (List (String × Json)))
    (analyze_company : String → Option SbCheckResult) : List Publication :=
  if !sections_truthy then []
  else
    match qa with
    | Except.error _ => []
    | Except.ok qa_result =>
        [{ queue := "aggregation_results",
           body := Json.obj [("service", Json.str "contract_extractor"),
                             ("payload", Json.obj (attach_sb_check analyze_company qa_result))] }]

end Compress.ContractExtractor

namespace Compress.Slicer

/-! ### Document slicer section serializer
(src/services/document_slicer/app/pipeline.py) -/

/-- Python strings handled by the serializer, modelled as character lists. -/
abbrev PyStr := List Char

/-- The whitespace class removed by Python `str.strip()`. -/
def isPySpace (c : Char) : Bool :=
  c = ' ' || c = '\t' || c = '\n' || c = '\r' || c = '\x0b' || c = '\x0c'

/-- Python `s.lstrip()`. -/
def lstrip (s : PyStr) : PyStr :=
  s.dropWhile isPySpace

/-- Python `s.rstrip()`. -/
def rstrip (s : PyStr) : PyStr :=
  (s.reverse.dropWhile isPySpace).reverse

/-- Python `s.strip()`. -/
def pyStrip (s : PyStr) : PyStr :=
  lstrip (rstrip s)

/-- Python `sep.join(parts)`. -/
def pyJoin (sep : PyStr) : List PyStr → PyStr
  | [] => []
  | [x] => x
  | x :: xs => x ++ sep ++ pyJoin sep xs

/-- Modelled from the spec: the intermediate section chunk produced by
`split_into_sections` (module `services.section_splitter`, whose source is
not in the repository snapshot; the data model of spec §3 gives its shape).
The serializer only reads `number`, `title` and `content`. -/
structure SectionChunk where
  number : Option Nat
  title : PyStr
  content : PyStr
  is_specification : Bool

/-- `SectionSerializer._section_to_text`: the stripped title (when the title
is truthy) and the stripped content (when the content is truthy) joined by a
single newline, dropping empty pieces. -/
def section_to_text (s : SectionChunk) : PyStr :=
  let parts : List PyStr :=
    (if s.title.isEmpty then [] else [pyStrip s.title]) ++
      (if s.content.isEmpty then [] else [pyStrip s.content])
  pyJoin ['\n'] (parts.filter (fun p => !p.isEmpty))

/-- The literal key `part_i`. -/
def partKey (i : Nat) : String :=
  "part_" ++ toString i

/-- The initial payload of `SectionSerializer.serialize`: the 17 keys
`part_0` .. `part_16`, all mapped to the empty string. -/
def initPayload : List (String × PyStr) :=
  (List.range 17).map (fun i => (partKey i, ([] : PyStr)))

/-- The body of the section loop in `SectionSerializer.serialize`: route the
chunk to `part_0` (header) or `part_k` for a detected ordinal 1..15, skip
other ordinals and empty texts, and append the text to the slot, separating
it from non-empty existing text by a blank line. -/
def serialize_step (payload : List (String × PyStr)) (s : SectionChunk) :
    List (String × PyStr) :=
  let key? : Option String :=
    match s.number with
    | none => some (partKey 0)
    | some n => if 1 ≤ n ∧ n ≤ 15 then some (partKey n) else none
  match key? with
  | none => payload
  | some key =>
      let section_text := section_to_text s
      if section_text.isEmpty then payload
      else
        let existing := dictGet payload key []
        dictSet payload key
          (pyJoin ['\n', '\n']
            (([pyStrip existing, section_text]).filter (fun v => !v.isEmpty)))

/-- `SectionSerializer.serialize`: fold the section loop over the initial
17-slot payload, then overwrite `part_16` with the stripped specification
text. -/
def serialize (sections : List SectionChunk) (blocks_html : PyStr) :
    List (String × PyStr) :=
  dictSet (sections.foldl serialize_step initPayload) (partKey 16) (pyStrip blocks_html)

end Compress.Slicer

namespace Compress.Aggregator

/-- Whether a message is a result message whose effective task id (the
correlation id, falling back to the body task id, as `_handle_result`
resolves it) is the given task. -/
def resultForTask (tid : String) : AggMsg → Bool
  | AggMsg.result c bt _ _ _ _ => pyOr c bt == some tid
  | AggMsg.init _ _ _ _ _ => false

/-- The state stored (or finalized) by `_handle_result` after it records the
payload under the service tag and drains the service from the expected set. -/
def result_state (st : AggregationState) (svc : String) (p : Option Json) : AggregationState :=
  ⟨if svc ∈ st.expected then st.expected.erase svc else st.expected,
   st.reply_to, dictSet st.results svc (p.getD (Json.obj []))⟩

end Compress.Aggregator

namespace Compress.AiLegal

/-- The error text the ai_legal worker publishes for each kind of domain
failure: the `HTTPException` detail verbatim, or the generic message with the
`ai_legal failed:` prefix. -/
def failure_text : DomainFailure → String
  | DomainFailure.httpError d => d
  | DomainFailure.exc m => "ai_legal failed: " ++ m

end Compress.AiLegal

namespace Compress.Slicer

/-- A string is trimmed when neither its first nor its last character is
Python whitespace. -/
def Trimmed (s : PyStr) : Prop :=
  (∀ c, s.head? = some c → isPySpace c = false) ∧
    (∀ c, s.getLast? = some c → isPySpace c = false)

end Compress.Slicer

namespace Compress

/-! ### Association-list and truthiness lemmas -/

theorem dictFind?_dictSet_self {α : Type} (d : List (String × α)) (k : String) (v : α) :
    dictFind? (dictSet d k v) k = some v := by
  induction d with
  | nil => simp [dictSet, dictFind?]
  | cons kv rest ih =>
      by_cases h : kv.1 = k
      · simp [dictSet, h, dictFind?]
      · simp [dictSet, h, dictFind?, ih]

theorem dictFind?_dictSet_ne {α : Type} (d : List (String × α)) (k1 k2 : String) (v : α)
    (h : k1 ≠ k2) : dictFind? (dictSet d k1 v) k2 = dictFind? d k2 := by
  induction d with
  | nil => simp [dictSet, dictFind?, h]
  | cons kv rest ih =>
      by_cases hk : kv.1 = k1
      · simp [dictSet, hk, dictFind?, h, hk ▸ h]
      · simp [dictSet, hk, dictFind?, ih]

theorem dictFind?_dictPop_ne {α : Type} (d : List (String × α)) (k1 k2 : String)
    (h : k1 ≠ k2) : dictFind? (dictPop d k1) k2 = dictFind? d k2 := by
  induction d with
  | nil => simp [dictPop]
  | cons kv rest ih =>
      by_cases hk : kv.1 = k1
      · simp [dictPop, hk, dictFind?, h, hk ▸ h]
      · simp [dictPop, hk, dictFind?, ih]

theorem dictPop_dictSet_of_absent {α : Type} (d : List (String × α)) (k : String) (v : α)
    (h : dictFind? d k = none) : dictPop (dictSet d k v) k = d := by
  induction d with
  | nil => simp [dictSet, dictPop]
  | cons kv rest ih =>
      by_cases hk : kv.1 = k
      · simp [dictFind?, hk] at h
      · simp [dictFind?, hk] at h
        simp [dictSet, hk, dictPop, ih h]

theorem dictSet_dictSet {α : Type} (d : List (String × α)) (k : String) (v w : α) :
    dictSet (dictSet d k v) k w = dictSet d k w := by
  induction d with
  | nil => simp [dictSet]
  | cons kv rest ih =>
      by_cases hk : kv.1 = k
      · simp [dictSet, hk]
      · simp [dictSet, hk, ih]

theorem dictSet_keys_of_mem {α : Type} (d : List (String × α)) (k : String) (v : α)
    (h : k ∈ d.map Prod.fst) : (dictSet d k v).map Prod.fst = d.map Prod.fst := by
  induction d with
  | nil => simp at h
  | cons kv rest ih =>
      by_cases hk : kv.1 = k
      · simp [dictSet, hk]
      · rw [List.map_cons] at h
        rcases List.mem_cons.mp h with h1 | h1
        · exact absurd h1.symm hk
        · simp [dictSet, hk, ih h1]

theorem mem_dictSet {α : Type} (d : List (String × α)) (k : String) (v : α) :
    ∀ kv ∈ dictSet d k v, kv.2 = v ∨ kv ∈ d := by
  induction d with
  | nil => simp [dictSet]
  | cons hd rest ih =>
      intro kv hkv
      by_cases hk : hd.1 = k
      · simp [dictSet, hk] at hkv
        rcases hkv with h | h
        · exact Or.inl (by simp [h])
        · exact Or.inr (by simp [h])
      · simp [dictSet, hk] at hkv
        rcases hkv with h | h
        · exact Or.inr (by simp [h])
        · rcases ih kv h with h2 | h2
          · exact Or.inl h2
          · exact Or.inr (by simp [h2])

theorem dictGet_dictSet_self {α : Type} (d : List (String × α)) (k : String) (v dflt : α) :
    dictGet (dictSet d k v) k dflt = v := by
  simp [dictGet, dictFind?_dictSet_self]

theorem dictGet_dictSet_ne {α : Type} (d : List (String × α)) (k1 k2 : String) (v dflt : α)
    (h : k1 ≠ k2) : dictGet (dictSet d k1 v) k2 dflt = dictGet d k2 dflt := by
  simp [dictGet, dictFind?_dictSet_ne _ _ _ _ h]

theorem dictGet_of_all_values {α : Type} (d : List (String × α)) (k : String) (dflt : α)
    (h : ∀ kv ∈ d, kv.2 = dflt) : dictGet d k dflt = dflt := by
  induction d with
  | nil => simp [dictGet, dictFind?]
  | cons kv rest ih =>
      by_cases hk : kv.1 = k
      · simp [dictGet, dictFind?, hk]
        exact h kv (by simp)
      · simp only [dictGet, dictFind?, hk, if_false]
        exact ih (fun kv2 h2 => h kv2 (by simp [h2]))

theorem strTruthy_some_of_ne (s : String) (h : s ≠ "") : strTruthy (some s) = true := by
  simp [strTruthy, h]

theorem pyOr_some_of_ne (s : String) (b : Option String) (h : s ≠ "") :
    pyOr (some s) b = some s := by
  simp [pyOr, strTruthy_some_of_ne s h]

theorem pyOr_none_left (b : Option String) : pyOr none b = b := rfl

end Compress

namespace Compress.Aggregator

/-! ### Claim C1: partials arriving before init -/

/-- C1 counterexample: a result message delivered before any init message for
its task (here the only message ever processed) makes the aggregator emit a
final envelope at once — the state is created with an empty expected set, the
completion check passes immediately, and the state is discarded.  The claim
that no final envelope is emitted until the init arrives is therefore false. -/
theorem C1_counterexample :
    (Compress.Aggregator.run
        [AggMsg.result (some "t1") none (some "ai_legal") (some (Json.obj [])) none
          (some "rq")]).2.map (fun e => (e.queue, e.task_id)) = [("rq", "t1")] ∧
    (Compress.Aggregator.run
        [AggMsg.result (some "t1") none (some "ai_legal") (some (Json.obj [])) none
          (some "rq")]).1 = [] := by
  constructor <;> rfl

/-- C1 (amended): a partial result arriving for a task with no existing state
is accepted and stored, but completion does not wait for the init: the
freshly created expected set is empty, so the completion check fires at once;
when the message carries a truthy reply-to the final envelope (holding just
this partial over the empty defaults) is emitted immediately and the task's
state is discarded rather than retained for a later init. -/
theorem C1_amended (states : States) (tid svc r : String) (p : Json)
    (habsent : dictFind? states tid = none)
    (htid : tid ≠ "") (hsvc : svc ≠ "") (hr : r ≠ "") :
    handle_result states (some tid) none (some svc) (some p) none (some r) =
      (states,
        [{ queue := r, task_id := tid,
           result := merge_results
             { expected := [], reply_to := some r, results := [(svc, p)] } }]) := by
  simp [handle_result, ensure_state, publish_final, pyOr_some_of_ne tid none htid,
    pyOr_none_left, htid, hsvc, hr, habsent, dictSet, dictSet_dictSet,
    dictPop_dictSet_of_absent]

/-- C1 witness: the amended theorem applied at a concrete pre-init partial. -/
theorem C1_witness :
    handle_result [] (some "t1") none (some "ai_legal") (some (Json.obj [])) none
        (some "rq") =
      ([],
        [{ queue := "rq", task_id := "t1",
           result := merge_results
             { expected := [], reply_to := some "rq",
               results := [("ai_legal", Json.obj [])] } }]) :=
  C1_amended [] "t1" "ai_legal" "rq" (Json.obj []) rfl (by decide) (by decide) (by decide)

end Compress.Aggregator

namespace Compress.Aggregator

/-- Behavior of `_handle_result` on a task with existing state: update the
reply queue when the message carries a truthy one, store the payload, drain
the service, and either finish the task or store the updated state. -/
theorem handle_result_found (states : States) (st : AggregationState) (tid svc : String)
    (p : Json) (br mr : Option String)
    (hfind : dictFind? states tid = some st)
    (htid : tid ≠ "") (hsvc : svc ≠ "") :
    handle_result states (some tid) none (some svc) (some p) br mr =
      (let rto := if strTruthy (pyOr br mr) then pyOr br mr else st.reply_to
       let exp := if svc ∈ st.expected then st.expected.erase svc else st.expected
       let st2 : AggregationState := ⟨exp, rto, dictSet st.results svc p⟩
       if exp = [] then (dictPop (dictSet states tid st2) tid, publish_final tid st2)
       else (dictSet states tid st2, [])) := by
  by_cases htr : strTruthy (pyOr br mr) = true <;>
  by_cases hmem : svc ∈ st.expected <;>
    simp [handle_result, ensure_state, hfind, htid, hsvc, htr, hmem,
      pyOr_some_of_ne tid none htid, dictSet_dictSet]

end Compress.Aggregator

namespace Compress.Aggregator

/-! ### Claim C2: duplicate result messages -/

/-- C2 counterexample: an init expecting one service, its result, and then the
very same result message redelivered.  The first result completes the task
and deletes its state; the redelivery re-creates a state whose expected set
is empty and immediately triggers a second final emission, so re-publishing a
result for the same (task, service) pair does cause a second final-envelope
emission. -/
theorem C2_counterexample :
    (Compress.Aggregator.run
        [AggMsg.init (some "t1") none ["ai_legal"] (some "rq") none,
         AggMsg.result (some "t1") none (some "ai_legal") (some (Json.obj [])) none (some "rq"),
         AggMsg.result (some "t1") none (some "ai_legal") (some (Json.obj [])) none
           (some "rq")]).2.map (fun e => (e.queue, e.task_id)) =
      [("rq", "t1"), ("rq", "t1")] := by
  rfl

/-- C2 (amended): as long as the task's state still exists after the delivery
(its expected set is not yet drained), redelivering the same result message
is idempotent: neither delivery emits, and the second delivery leaves the
state table exactly as the first left it (the payload is overwritten in
place, so the service still holds exactly one results key).  A duplicate
delivered after the final emission, however, re-creates state and emits again
(see the counterexample). -/
theorem C2_amended (states : States) (st : AggregationState) (tid svc r : String) (p : Json)
    (hfind : dictFind? states tid = some st)
    (htid : tid ≠ "") (hsvc : svc ≠ "") (hr : r ≠ "")
    (hnodup : st.expected.Nodup)
    (hrem : st.expected.erase svc ≠ []) :
    (handle_result states (some tid) none (some svc) (some p) none (some r)).2 = [] ∧
    handle_result (handle_result states (some tid) none (some svc) (some p) none (some r)).1
        (some tid) none (some svc) (some p) none (some r) =
      ((handle_result states (some tid) none (some svc) (some p) none (some r)).1, []) := by
  have hexp : (if svc ∈ st.expected then st.expected.erase svc else st.expected) =
      st.expected.erase svc := by
    by_cases hmem : svc ∈ st.expected
    · simp [hmem]
    · simp [hmem, List.erase_of_not_mem hmem]
  have h1 := handle_result_found states st tid svc p none (some r) hfind htid hsvc
  rw [pyOr_none_left] at h1
  simp only [strTruthy_some_of_ne r hr, if_true, hexp, if_neg hrem] at h1
  have hnotmem : svc ∉ st.expected.erase svc := fun hm =>
    (List.Nodup.mem_erase_iff hnodup).mp hm |>.1 rfl
  have hfind2 :
      dictFind? (handle_result states (some tid) none (some svc) (some p) none (some r)).1
        tid = some ⟨st.expected.erase svc, some r, dictSet st.results svc p⟩ := by
    rw [h1]
    exact dictFind?_dictSet_self _ _ _
  have h2 := handle_result_found
    (handle_result states (some tid) none (some svc) (some p) none (some r)).1
    ⟨st.expected.erase svc, some r, dictSet st.results svc p⟩ tid svc p none (some r)
    hfind2 htid hsvc
  rw [pyOr_none_left] at h2
  simp only [strTruthy_some_of_ne r hr, if_true, hnotmem, if_false, if_neg hrem,
    dictSet_dictSet] at h2
  refine ⟨by rw [h1], ?_⟩
  rw [h2, h1, dictSet_dictSet]

/-- C2 witness: the amended theorem at a concrete state where a second
service is still expected after the duplicate delivery. -/
theorem C2_witness :
    (handle_result [("t1", ⟨["ai_legal", "ai_econom"], none, []⟩)] (some "t1") none
        (some "ai_legal") (some (Json.obj [])) none (some "rq")).2 = [] ∧
    handle_result
        (handle_result [("t1", ⟨["ai_legal", "ai_econom"], none, []⟩)] (some "t1") none
          (some "ai_legal") (some (Json.obj [])) none (some "rq")).1
        (some "t1") none (some "ai_legal") (some (Json.obj [])) none (some "rq") =
      ((handle_result [("t1", ⟨["ai_legal", "ai_econom"], none, []⟩)] (some "t1") none
          (some "ai_legal") (some (Json.obj [])) none (some "rq")).1, []) :=
  C2_amended [("t1", ⟨["ai_legal", "ai_econom"], none, []⟩)]
    ⟨["ai_legal", "ai_econom"], none, []⟩ "t1" "ai_legal" "rq" (Json.obj []) rfl
    (by decide) (by decide) (by decide) (by decide) (by decide)

end Compress.Aggregator

namespace Compress.Aggregator

/-! ### Claim C8: init with an empty expected set -/

/-- C8 counterexample: a task whose first (and only) observed message is an
init with an empty `expected_services` list and a truthy reply queue.  The
aggregator emits nothing upon this init — `_handle_init` never publishes — it
only creates the state, so the claimed immediate empty final envelope does
not exist. -/
theorem C8_counterexample :
    (Compress.Aggregator.run [AggMsg.init (some "t1") none [] (some "rq") none]).2 = [] ∧
    (Compress.Aggregator.run [AggMsg.init (some "t1") none [] (some "rq") none]).1.map
      Prod.fst = ["t1"] := by
  constructor <;> rfl

/-- C8 (amended): an init with an empty expected set and a truthy reply queue
emits nothing; it creates a state with an empty expected set.  The final
envelope for such a task is emitted only when the first result message for
the task arrives: its completion check passes trivially and the envelope
goes to the reply queue recorded by the init. -/
theorem C8_amended (tid svc r : String) (p : Json)
    (htid : tid ≠ "") (hsvc : svc ≠ "") (hr : r ≠ "") :
    Compress.Aggregator.run [AggMsg.init (some tid) none [] (some r) none] =
      ([(tid, ⟨[], some r, []⟩)], []) ∧
    (Compress.Aggregator.run
        [AggMsg.init (some tid) none [] (some r) none,
         AggMsg.result (some tid) none (some svc) (some p) none none]).2.map
      (fun e => (e.queue, e.task_id)) = [(r, tid)] := by
  have hinit : handle_init [] (some tid) none [] (some r) none =
      [(tid, ⟨[], some r, []⟩)] := by
    simp [handle_init, pyOr_some_of_ne tid none htid, pyOr_some_of_ne r none hr, htid,
      ensure_state, dictFind?, setOf, setUnion, dictSet]
  have hfind : dictFind? [(tid, (⟨[], some r, []⟩ : AggregationState))] tid =
      some ⟨[], some r, []⟩ := by
    simp [dictFind?]
  have hres := handle_result_found [(tid, ⟨[], some r, []⟩)] ⟨[], some r, []⟩ tid svc p
    none none hfind htid hsvc
  simp only [pyOr_none_left, strTruthy, Bool.false_eq_true, if_false,
    List.not_mem_nil, List.erase_nil] at hres
  constructor
  · simp [Compress.Aggregator.run, runFrom, step, hinit]
  · simp [Compress.Aggregator.run, runFrom, step, hinit, hres, publish_final, hr,
      dictSet, dictPop]

/-- C8 witness: the amended theorem at a concrete task. -/
theorem C8_witness :
    Compress.Aggregator.run [AggMsg.init (some "t1") none [] (some "rq") none] =
      ([("t1", ⟨[], some "rq", []⟩)], []) ∧
    (Compress.Aggregator.run
        [AggMsg.init (some "t1") none [] (some "rq") none,
         AggMsg.result (some "t1") none (some "ai_legal") (some (Json.obj [])) none
           none]).2.map (fun e => (e.queue, e.task_id)) = [("rq", "t1")] :=
  C8_amended "t1" "ai_legal" "rq" (Json.obj []) (by decide) (by decide) (by decide)

end Compress.Aggregator

namespace Compress.Aggregator

/-! ### Claim C10: partials overwrite the stored reply queue -/

/-- C10: a partial result that carries a truthy reply-to (from its payload or
its message property, combined exactly as the handler combines them)
overwrites the task's stored `reply_to` inside `_ensure_state`, before the
completion check: the state the handler goes on to inspect carries the
partial's reply queue; hence any final envelope published by this delivery is
addressed to the partial's reply queue, and, when the task is not yet
complete, the stored state keeps the partial's reply queue for the eventual
final emission — the init's queue is forgotten. -/
theorem C10_reply_overwrite (states : States) (st : AggregationState) (tid svc r : String)
    (p : Json) (br mr : Option String)
    (hfind : dictFind? states tid = some st)
    (htid : tid ≠ "") (hsvc : svc ≠ "") (hr : r ≠ "")
    (heff : pyOr br mr = some r) :
    ((ensure_state states tid (pyOr br mr)).2.reply_to = some r) ∧
    (∀ e ∈ (handle_result states (some tid) none (some svc) (some p) br mr).2, e.queue = r) ∧
    ((handle_result states (some tid) none (some svc) (some p) br mr).2 = [] →
      ∃ st2,
        dictFind? (handle_result states (some tid) none (some svc) (some p) br mr).1 tid =
            some st2 ∧
          st2.reply_to = some r) := by
  have hens : (ensure_state states tid (pyOr br mr)).2.reply_to = some r := by
    simp [ensure_state, hfind, heff, strTruthy_some_of_ne r hr]
  have h1 := handle_result_found states st tid svc p br mr hfind htid hsvc
  rw [heff] at h1
  simp only [strTruthy_some_of_ne r hr, if_true] at h1
  by_cases hempty : (if svc ∈ st.expected then st.expected.erase svc else st.expected) = []
  · simp only [hempty, if_true, reduceIte] at h1
    refine ⟨hens, ?_, ?_⟩
    · intro e he
      rw [h1] at he
      simp [publish_final, hr] at he
      rw [he]
    · intro hnone
      rw [h1] at hnone
      simp [publish_final, hr] at hnone
  · simp only [if_neg hempty] at h1
    refine ⟨hens, ?_, ?_⟩
    · intro e he
      rw [h1] at he
      simp at he
    · intro _
      refine ⟨⟨if svc ∈ st.expected then st.expected.erase svc else st.expected, some r,
        dictSet st.results svc p⟩, ?_, rfl⟩
      rw [h1]
      exact dictFind?_dictSet_self _ _ _

/-- C10 witness: the reply overwrite at a concrete state that stored a
different queue at init time. -/
theorem C10_witness :
    (ensure_state [("t1", ⟨["ai_legal", "ai_econom"], some "init_q", []⟩)] "t1"
        (pyOr (some "new_q") none)).2.reply_to = some "new_q" :=
  (C10_reply_overwrite [("t1", ⟨["ai_legal", "ai_econom"], some "init_q", []⟩)]
    ⟨["ai_legal", "ai_econom"], some "init_q", []⟩ "t1" "ai_legal" "new_q" (Json.obj [])
    (some "new_q") none (by simp [dictFind?]) (by decide) (by decide) (by decide)
    (by decide)).1

end Compress.Aggregator

namespace Compress.Aggregator

/-! ### Claim C9: no stale-task timeout exists -/

theorem runFrom_acc (ms : List AggMsg) : ∀ (s : States) (es : List Emission),
    ms.foldl (fun acc m => let out := step acc.1 m; (out.1, acc.2 ++ out.2)) (s, es) =
      ((runFrom s ms).1, es ++ (runFrom s ms).2) := by
  induction ms with
  | nil => intro s es; simp [runFrom]
  | cons m ms2 ih =>
      intro s es
      simp only [runFrom, List.foldl_cons]
      rw [ih, ih]
      simp [runFrom, List.append_assoc]

theorem runFrom_cons (s : States) (m : AggMsg) (ms : List AggMsg) :
    runFrom s (m :: ms) =
      ((runFrom (step s m).1 ms).1, (step s m).2 ++ (runFrom (step s m).1 ms).2) := by
  simp only [runFrom, List.foldl_cons]
  rw [runFrom_acc]
  simp [runFrom]

theorem isSome_dictFind?_dictSet {α : Type} (d : List (String × α)) (k1 k2 : String) (v : α)
    (h : (dictFind? d k2).isSome = true) :
    (dictFind? (dictSet d k1 v) k2).isSome = true := by
  by_cases hk : k1 = k2
  · subst hk
    rw [dictFind?_dictSet_self]
    rfl
  · rw [dictFind?_dictSet_ne _ _ _ _ hk]
    exact h

theorem ensure_state_preserves_isSome (states : States) (task_id : String)
    (reply_to : Option String) (expected : Option (List String)) (tid : String)
    (h : (dictFind? states tid).isSome = true) :
    (dictFind? (ensure_state states task_id reply_to expected).1 tid).isSome = true := by
  unfold ensure_state
  cases hf : dictFind? states task_id with
  | some st => exact isSome_dictFind?_dictSet _ _ _ _ h
  | none => exact isSome_dictFind?_dictSet _ _ _ _ h

theorem handle_init_preserves_isSome (states : States)
    (bt c : Option String) (es : List String) (br mr : Option String) (tid : String)
    (h : (dictFind? states tid).isSome = true) :
    (dictFind? (handle_init states bt c es br mr) tid).isSome = true := by
  unfold handle_init
  cases pyOr bt c with
  | none => exact h
  | some t =>
      by_cases ht : t = ""
      · simp [ht, h]
      · simp only [ht, if_false, reduceIte]
        exact ensure_state_preserves_isSome _ _ _ _ _ h

theorem publish_final_task_id (t : String) (st : AggregationState) :
    ∀ e ∈ publish_final t st, e.task_id = t := by
  obtain ⟨exp, rto, res⟩ := st
  intro e he
  cases rto with
  | none => simp [publish_final] at he
  | some r =>
      by_cases hr : r = ""
      · simp [publish_final, hr] at he
      · simp [publish_final, hr] at he
        rw [he]

/-- Flattened form of `_handle_result` when the effective task id and the
service tag are both truthy. -/
theorem handle_result_eq (states : States) (c bt : Option String) (t svc : String)
    (p : Option Json) (br mr : Option String)
    (hpo : pyOr c bt = some t) (ht : t ≠ "") (hsvc : svc ≠ "") :
    handle_result states c bt (some svc) p br mr =
      if (result_state (ensure_state states t (pyOr br mr)).2 svc p).expected = [] then
        (dictPop (dictSet (ensure_state states t (pyOr br mr)).1 t
            (result_state (ensure_state states t (pyOr br mr)).2 svc p)) t,
         publish_final t (result_state (ensure_state states t (pyOr br mr)).2 svc p))
      else
        (dictSet (ensure_state states t (pyOr br mr)).1 t
          (result_state (ensure_state states t (pyOr br mr)).2 svc p), []) := by
  have hneg : ¬(t = "" ∨ svc = "") := by simp [ht, hsvc]
  unfold handle_result
  rw [hpo]
  simp only [hneg, if_false, reduceIte, result_state]
  by_cases hmem : svc ∈ (ensure_state states t (pyOr br mr)).2.expected <;> simp [hmem]

theorem handle_result_none_task (states : States) (c bt s : Option String)
    (p : Option Json) (br mr : Option String) (h : pyOr c bt = none) :
    handle_result states c bt s p br mr = (states, []) := by
  unfold handle_result
  rw [h]

theorem handle_result_none_service (states : States) (c bt : Option String)
    (p : Option Json) (br mr : Option String) :
    handle_result states c bt none p br mr = (states, []) := by
  unfold handle_result
  cases hpo : pyOr c bt <;> rfl

theorem handle_result_falsy (states : States) (c bt : Option String) (t svc : String)
    (p : Option Json) (br mr : Option String)
    (hpo : pyOr c bt = some t) (hts : t = "" ∨ svc = "") :
    handle_result states c bt (some svc) p br mr = (states, []) := by
  unfold handle_result
  rw [hpo]
  simp only [hts, if_true, reduceIte]

theorem step_no_timeout (states : States) (m : AggMsg) (tid : String)
    (hm : resultForTask tid m = false)
    (h : (dictFind? states tid).isSome = true) :
    (dictFind? (step states m).1 tid).isSome = true ∧
      ∀ e ∈ (step states m).2, e.task_id ≠ tid := by
  cases m with
  | init bt c es br mr =>
      exact ⟨handle_init_preserves_isSome _ _ _ _ _ _ _ h, by simp [step]⟩
  | result c bt s p br mr =>
      simp only [step]
      cases hpo : pyOr c bt with
      | none =>
          rw [handle_result_none_task states c bt s p br mr hpo]
          exact ⟨h, by simp⟩
      | some t =>
          cases s with
          | none =>
              rw [handle_result_none_service states c bt p br mr]
              exact ⟨h, by simp⟩
          | some svc =>
              have htne : t ≠ tid := by
                intro hcontra
                subst hcontra
                simp [resultForTask, hpo] at hm
              by_cases hts : t = "" ∨ svc = ""
              · rw [handle_result_falsy states c bt t svc p br mr hpo hts]
                exact ⟨h, by simp⟩
              · push_neg at hts
                rw [handle_result_eq states c bt t svc p br mr hpo hts.1 hts.2]
                have h1 : (dictFind?
                    (dictSet (ensure_state states t (pyOr br mr)).1 t
                      (result_state (ensure_state states t (pyOr br mr)).2 svc p))
                    tid).isSome = true :=
                  isSome_dictFind?_dictSet _ _ _ _
                    (ensure_state_preserves_isSome states t (pyOr br mr) none tid h)
                by_cases hemp :
                    (result_state (ensure_state states t (pyOr br mr)).2 svc p).expected = []
                · rw [if_pos hemp]
                  refine ⟨?_, ?_⟩
                  · rw [dictFind?_dictPop_ne _ _ _ htne]
                    exact h1
                  · intro e he
                    rw [publish_final_task_id t _ e he]
                    exact htne
                · rw [if_neg hemp]
                  exact ⟨h1, by simp⟩

/-- C9: the aggregator has no stale-task timeout.  Its only transitions are
the two message handlers; for a task that is present in the state table,
processing any stream of messages none of which is a result message for that
task leaves the task's state resident forever and never emits any envelope
for it — the state is discarded only by the completion path of
`_handle_result`, never by the passage of time, so the claimed configurable
timeout that emits a partial final envelope and discards the state does not
exist. -/
theorem C9_no_stale_timeout (msgs : List AggMsg) (states : States) (tid : String)
    (hpresent : (dictFind? states tid).isSome = true)
    (hmsgs : ∀ m ∈ msgs, resultForTask tid m = false) :
    (dictFind? (runFrom states msgs).1 tid).isSome = true ∧
      ∀ e ∈ (runFrom states msgs).2, e.task_id ≠ tid := by
  induction msgs generalizing states with
  | nil => exact ⟨hpresent, by simp [runFrom]⟩
  | cons m ms ih =>
      have hstep := step_no_timeout states m tid (hmsgs m (by simp)) hpresent
      have hrest := ih (step states m).1 hstep.1 (fun m2 hm2 => hmsgs m2 (by simp [hm2]))
      rw [runFrom_cons]
      refine ⟨hrest.1, ?_⟩
      intro e he
      simp only [List.mem_append] at he
      rcases he with he | he
      · exact hstep.2 e he
      · exact hrest.2 e he

/-- C9 witness: a task expecting a service that never reports stays resident
across unrelated traffic. -/
theorem C9_witness :
    (dictFind?
        (runFrom [("t1", ⟨["ai_legal"], some "rq", []⟩)]
          [AggMsg.init (some "t1") none ["ai_econom"] none none,
           AggMsg.result (some "t2") none (some "ai_legal") none none none]).1
        "t1").isSome = true :=
  (C9_no_stale_timeout
    [AggMsg.init (some "t1") none ["ai_econom"] none none,
     AggMsg.result (some "t2") none (some "ai_legal") none none none]
    [("t1", ⟨["ai_legal"], some "rq", []⟩)] "t1" (by decide) (by decide)).1

end Compress.Aggregator

namespace Compress

/-! ### Claim C4: worker behavior on domain-logic failure -/

/-- C4 counterexample: the ai_econom worker has no exception guard around its
domain logic; when the analysis fails, the exception propagates out of the
message scope and the worker publishes nothing at all — no result message
with an error payload reaches the results queue for this delivery. -/
theorem C4_counterexample :
    AiEconom.handle_message (some "t1") [("part_16", Json.str "spec")]
      (Except.error "boom") = [] := rfl

/-- C4 (amended): only the ai_legal worker converts a domain-logic failure
into a published result: it publishes exactly one message to the results
queue whose payload carries an `error` field with the failure text.  The
ai_econom and contract_extractor workers publish nothing when their domain
logic fails (the delivery is failed back to the broker), so those services do
not account for a terminal partial on failure. -/
theorem C4_amended :
    (∀ f : DomainFailure,
        (AiLegal.handle_message true (Except.error f)).map
          (fun pb => (pb.queue, jsonGet pb.body "service",
            (jsonGet pb.body "payload").bind (fun pl => jsonGet pl "error"))) =
          [("aggregation_results", some (Json.str "ai_legal"),
            some (Json.str (AiLegal.failure_text f)))]) ∧
    (∀ (c : Option String) (parts : List (String × Json)) (m : String),
        AiEconom.handle_message c parts (Except.error m) = []) ∧
    (∀ (f : DomainFailure) (analyze : String → Option ContractExtractor.SbCheckResult),
        ContractExtractor.handle_message true (Except.error f) analyze = []) := by
  refine ⟨?_, ?_, ?_⟩
  · intro f
    cases f <;> rfl
  · intro c parts m
    rfl
  · intro f analyze
    rfl

/-! ### Claim C3: missing seller and the sb_ai stub -/

/-- C3: when the extraction output carries no usable seller, the
contract_extractor worker does NOT emit any `sb_ai` result message: it
publishes exactly one message, tagged `contract_extractor`, whose payload
merely embeds the sb stub under its own `sb_ai` key; the stub has status
fields only and no `reason` entry, and nothing is ever sent to the sb queue.
Consequently an expected set containing `sb_ai` is never drained: after the
init and all three worker results the aggregator still waits for `sb_ai`,
emits nothing, and the task never terminates. -/
theorem C3_no_sb_stub_message (qa_result : List (String × Json))
    (analyze : String → Option ContractExtractor.SbCheckResult)
    (hseller : ContractExtractor.seller_of qa_result = none) :
    (ContractExtractor.handle_message true (Except.ok qa_result) analyze).map
        (fun pb => (pb.queue, jsonGet pb.body "service")) =
      [("aggregation_results", some (Json.str "contract_extractor"))] ∧
    (∀ pb ∈ ContractExtractor.handle_message true (Except.ok qa_result) analyze,
        jsonGet pb.body "service" ≠ some (Json.str "sb_ai") ∧ pb.queue ≠ "sb_queue") ∧
    jsonGet (Json.obj (ContractExtractor.attach_sb_check analyze qa_result)) "sb_ai" =
      some (Json.obj ContractExtractor.sb_stub) ∧
    dictFind? ContractExtractor.sb_stub "reason" = none ∧
    (Compress.Aggregator.run
        [Compress.Aggregator.AggMsg.init (some "t") none
          ["ai_legal", "ai_econom", "contract_extractor", "sb_ai"] (some "rq") none,
         Compress.Aggregator.AggMsg.result (some "t") none (some "ai_legal")
           (some (Json.obj [])) none none,
         Compress.Aggregator.AggMsg.result (some "t") none (some "ai_econom")
           (some (Json.obj [])) none none,
         Compress.Aggregator.AggMsg.result (some "t") none (some "contract_extractor")
           (some (Json.obj (ContractExtractor.attach_sb_check analyze qa_result))) none
           none]).2 = [] ∧
    (dictFind? (Compress.Aggregator.run
        [Compress.Aggregator.AggMsg.init (some "t") none
          ["ai_legal", "ai_econom", "contract_extractor", "sb_ai"] (some "rq") none,
         Compress.Aggregator.AggMsg.result (some "t") none (some "ai_legal")
           (some (Json.obj [])) none none,
         Compress.Aggregator.AggMsg.result (some "t") none (some "ai_econom")
           (some (Json.obj [])) none none,
         Compress.Aggregator.AggMsg.result (some "t") none (some "contract_extractor")
           (some (Json.obj (ContractExtractor.attach_sb_check analyze qa_result))) none
           none]).1 "t").map (fun st => st.expected) = some ["sb_ai"] := by
  refine ⟨?_, ?_, ?_, rfl, ?_, ?_⟩
  · simp [ContractExtractor.handle_message, jsonGet, dictFind?]
  · simp [ContractExtractor.handle_message, jsonGet, dictFind?]
  · simp [ContractExtractor.attach_sb_check, hseller, jsonGet, dictFind?_dictSet_self]
  · simp [Compress.Aggregator.run, Compress.Aggregator.runFrom, Compress.Aggregator.step,
      Compress.Aggregator.handle_init, Compress.Aggregator.handle_result,
      Compress.Aggregator.ensure_state, Compress.Aggregator.publish_final,
      setOf, setUnion, setInsert, dictFind?, dictSet, dictPop, pyOr, strTruthy,
      List.erase_cons]
  · simp [Compress.Aggregator.run, Compress.Aggregator.runFrom, Compress.Aggregator.step,
      Compress.Aggregator.handle_init, Compress.Aggregator.handle_result,
      Compress.Aggregator.ensure_state, Compress.Aggregator.publish_final,
      setOf, setUnion, setInsert, dictFind?, dictSet, dictPop, pyOr, strTruthy,
      List.erase_cons]

/-- C3 witness: the stub (with no reason field) is embedded in the worker's
own payload for a concrete QA output without a seller. -/
theorem C3_witness :
    jsonGet (Json.obj (ContractExtractor.attach_sb_check (fun _ => none)
        [("ok", Json.bool true), ("result", Json.obj [])])) "sb_ai" =
      some (Json.obj ContractExtractor.sb_stub) :=
  (C3_no_sb_stub_message [("ok", Json.bool true), ("result", Json.obj [])]
    (fun _ => none) rfl).2.2.1

end Compress

namespace Compress.Slicer

/-! ### Trimmed-string lemmas for the section serializer -/

theorem trimmed_nil : Trimmed [] := by
  constructor <;> intro c h <;> simp at h

theorem head?_dropWhile (p : Char → Bool) (l : PyStr) :
    ∀ c, (l.dropWhile p).head? = some c → p c = false := by
  induction l with
  | nil => intro c h; simp at h
  | cons a t ih =>
      intro c h
      rw [List.dropWhile_cons] at h
      by_cases hp : p a
      · rw [if_pos hp] at h
        exact ih c h
      · rw [if_neg hp] at h
        simp only [List.head?_cons, Option.some.injEq] at h
        subst h
        simpa using hp

theorem getLast?_dropWhile (p : Char → Bool) (l : PyStr) :
    ∀ c, (l.dropWhile p).getLast? = some c → l.getLast? = some c := by
  induction l with
  | nil => intro c h; simp at h
  | cons a t ih =>
      intro c h
      rw [List.dropWhile_cons] at h
      by_cases hp : p a
      · rw [if_pos hp] at h
        have h2 := ih c h
        cases t with
        | nil => simp at h2
        | cons b u =>
            rw [List.getLast?_cons_cons]
            exact h2
      · rw [if_neg hp] at h
        exact h

theorem trimmed_pyStrip (s : PyStr) : Trimmed (pyStrip s) := by
  constructor
  · intro c h
    rw [pyStrip, lstrip] at h
    exact head?_dropWhile isPySpace (rstrip s) c h
  · intro c h
    rw [pyStrip, lstrip] at h
    have h2 : (rstrip s).getLast? = some c := getLast?_dropWhile isPySpace (rstrip s) c h
    rw [rstrip, List.getLast?_reverse] at h2
    exact head?_dropWhile isPySpace s.reverse c h2

theorem dropWhile_eq_self_of_head (p : Char → Bool) (l : PyStr)
    (h : ∀ c, l.head? = some c → p c = false) : l.dropWhile p = l := by
  cases l with
  | nil => rfl
  | cons a t =>
      rw [List.dropWhile_cons, h a rfl]
      simp

theorem pyStrip_eq_self (s : PyStr) (h : Trimmed s) : pyStrip s = s := by
  have hr : rstrip s = s := by
    rw [rstrip, dropWhile_eq_self_of_head isPySpace s.reverse ?_]
    · exact List.reverse_reverse s
    · intro c hc
      rw [List.head?_reverse] at hc
      exact h.2 c hc
  rw [pyStrip, lstrip, hr]
  exact dropWhile_eq_self_of_head isPySpace s h.1

theorem pyJoin_ne_nil (sep x : PyStr) (xs : List PyStr) (hx : x ≠ []) :
    pyJoin sep (x :: xs) ≠ [] := by
  cases xs with
  | nil => simpa [pyJoin] using hx
  | cons y ys =>
      simp only [pyJoin]
      intro hcontra
      rcases List.append_eq_nil.mp hcontra with ⟨h1, _⟩
      rcases List.append_eq_nil.mp h1 with ⟨h2, _⟩
      exact hx h2

theorem trimmed_pyJoin (sep : PyStr) (l : List PyStr)
    (h : ∀ x ∈ l, x ≠ [] ∧ Trimmed x) : Trimmed (pyJoin sep l) := by
  induction l with
  | nil => exact trimmed_nil
  | cons x xs ih =>
      cases xs with
      | nil => exact (h x (by simp)).2
      | cons y ys =>
          have hx := h x (by simp)
          have hrest : Trimmed (pyJoin sep (y :: ys)) :=
            ih (fun z hz => h z (by simp [hz]))
          have hjne : pyJoin sep (y :: ys) ≠ [] :=
            pyJoin_ne_nil sep y ys (h y (by simp)).1
          have heq : pyJoin sep (x :: y :: ys) = (x ++ sep) ++ pyJoin sep (y :: ys) := rfl
          constructor
          · intro c hc
            rw [heq, List.head?_append_of_ne_nil _ (by simp [hx.1]),
              List.head?_append_of_ne_nil _ hx.1] at hc
            exact hx.2.1 c hc
          · intro c hc
            rw [heq, List.getLast?_append_of_ne_nil _ hjne] at hc
            exact hrest.2 c hc

theorem trimmed_section_to_text (s : SectionChunk) : Trimmed (section_to_text s) := by
  have heq : section_to_text s =
      pyJoin ['\n']
        (((if s.title.isEmpty then [] else [pyStrip s.title]) ++
          (if s.content.isEmpty then [] else [pyStrip s.content])).filter
          (fun p => !p.isEmpty)) := rfl
  rw [heq]
  refine trimmed_pyJoin _ _ ?_
  intro x hx
  rw [List.mem_filter] at hx
  obtain ⟨hmem, hne⟩ := hx
  refine ⟨by simpa using hne, ?_⟩
  rcases List.mem_append.mp hmem with h | h
  · by_cases ht : s.title.isEmpty <;> simp [ht] at h
    rw [h]
    exact trimmed_pyStrip _
  · by_cases hc : s.content.isEmpty <;> simp [hc] at h
    rw [h]
    exact trimmed_pyStrip _

/-! ### Serializer invariants -/

theorem dictSet_prop_inv {α : Type} (P : α → Prop) (d : List (String × α)) (k : String)
    (v : α) (hk : k ∈ d.map Prod.fst) (hv : P v) (h2 : ∀ kv ∈ d, P kv.2) :
    (dictSet d k v).map Prod.fst = d.map Prod.fst ∧ ∀ kv ∈ dictSet d k v, P kv.2 := by
  refine ⟨dictSet_keys_of_mem d k v hk, ?_⟩
  intro kv hkv
  rcases mem_dictSet d k v kv hkv with h | h
  · rw [h]; exact hv
  · exact h2 kv h

theorem initPayload_values : ∀ kv ∈ initPayload, kv.2 = ([] : PyStr) := by
  intro kv hkv
  obtain ⟨i, _, rfl⟩ := List.mem_map.mp hkv
  rfl

theorem initPayload_keys_eq : initPayload.map Prod.fst = (List.range 17).map partKey := by
  simp [initPayload, List.map_map]

theorem initPayload_keys_lit :
    initPayload.map Prod.fst =
      ["part_0", "part_1", "part_2", "part_3", "part_4", "part_5", "part_6", "part_7",
       "part_8", "part_9", "part_10", "part_11", "part_12", "part_13", "part_14",
       "part_15", "part_16"] := by
  rfl

theorem partKey_mem_initPayload (n : Nat) (hn : n < 17) :
    partKey n ∈ initPayload.map Prod.fst := by
  rw [initPayload_keys_eq]
  exact List.mem_map.mpr ⟨n, List.mem_range.mpr hn, rfl⟩

theorem serialize_step_inv (payload : List (String × PyStr)) (s : SectionChunk)
    (h1 : payload.map Prod.fst = initPayload.map Prod.fst)
    (h2 : ∀ kv ∈ payload, Trimmed kv.2) :
    (serialize_step payload s).map Prod.fst = initPayload.map Prod.fst ∧
      ∀ kv ∈ serialize_step payload s, Trimmed kv.2 := by
  have hstore : ∀ key : String, key ∈ payload.map Prod.fst →
      ((if (section_to_text s).isEmpty then payload
        else dictSet payload key
          (pyJoin ['\n', '\n']
            (([pyStrip (dictGet payload key []), section_to_text s]).filter
              (fun v => !v.isEmpty)))).map Prod.fst = initPayload.map Prod.fst ∧
        ∀ kv ∈ (if (section_to_text s).isEmpty then payload
          else dictSet payload key
            (pyJoin ['\n', '\n']
              (([pyStrip (dictGet payload key []), section_to_text s]).filter
                (fun v => !v.isEmpty)))), Trimmed kv.2) := by
    intro key hkey
    by_cases hempty : (section_to_text s).isEmpty
    · simp only [hempty, if_true, reduceIte]
      exact ⟨h1, h2⟩
    · simp only [hempty, if_false, Bool.false_eq_true, reduceIte]
      have hv : Trimmed (pyJoin ['\n', '\n']
          (([pyStrip (dictGet payload key []), section_to_text s]).filter
            (fun v => !v.isEmpty))) := by
        refine trimmed_pyJoin _ _ ?_
        intro x hx
        rw [List.mem_filter] at hx
        obtain ⟨hmem, hne⟩ := hx
        refine ⟨by simpa using hne, ?_⟩
        simp only [List.mem_cons, List.not_mem_nil, or_false] at hmem
        rcases hmem with hmem | hmem
        · rw [hmem]
          exact trimmed_pyStrip _
        · rw [hmem]
          exact trimmed_section_to_text s
      have hres := dictSet_prop_inv Trimmed payload key _ hkey hv h2
      exact ⟨by rw [hres.1, h1], hres.2⟩
  unfold serialize_step
  cases hn : s.number with
  | none =>
      exact hstore (partKey 0) (by rw [h1]; exact partKey_mem_initPayload 0 (by omega))
  | some n =>
      by_cases hr : 1 ≤ n ∧ n ≤ 15
      · simp only [hr, if_true, reduceIte]
        exact hstore (partKey n) (by rw [h1]; exact partKey_mem_initPayload n (by omega))
      · simp only [hr, if_false, reduceIte]
        exact ⟨h1, h2⟩

theorem serialize_step_store (payload : List (String × PyStr)) (s : SectionChunk) (k : Nat)
    (hn : s.number = some k) (hk1 : 1 ≤ k) (hk2 : k ≤ 15)
    (ht : section_to_text s ≠ []) :
    serialize_step payload s =
      dictSet payload (partKey k)
        (pyJoin ['\n', '\n']
          (([pyStrip (dictGet payload (partKey k) []), section_to_text s]).filter
            (fun v => !v.isEmpty))) := by
  unfold serialize_step
  simp only [hn, hk1, hk2, and_self, if_true, reduceIte]
  simp [ht]

theorem serialize_fold_inv (sections : List SectionChunk) :
    ∀ payload : List (String × PyStr),
      payload.map Prod.fst = initPayload.map Prod.fst → (∀ kv ∈ payload, Trimmed kv.2) →
      ((sections.foldl serialize_step payload).map Prod.fst = initPayload.map Prod.fst ∧
        ∀ kv ∈ sections.foldl serialize_step payload, Trimmed kv.2) := by
  induction sections with
  | nil => intro payload h1 h2; exact ⟨h1, h2⟩
  | cons s rest ih =>
      intro payload h1 h2
      rw [List.foldl_cons]
      have hstep := serialize_step_inv payload s h1 h2
      exact ih (serialize_step payload s) hstep.1 hstep.2

end Compress.Slicer

namespace Compress.Slicer

/-! ### Claim C5: shape of the section map -/

/-- C5: for every list of section chunks and every specification text, the
serializer's output has exactly the seventeen keys `part_0` .. `part_16`, in
order and with no other keys, and every value is either the empty string or
non-empty text left fixed by stripping (trimmed). -/
theorem C5_section_map_invariant (sections : List SectionChunk) (blocks_html : PyStr) :
    (serialize sections blocks_html).map Prod.fst =
      ["part_0", "part_1", "part_2", "part_3", "part_4", "part_5", "part_6", "part_7",
       "part_8", "part_9", "part_10", "part_11", "part_12", "part_13", "part_14",
       "part_15", "part_16"] ∧
    ∀ kv ∈ serialize sections blocks_html,
      kv.2 = [] ∨ (kv.2 ≠ [] ∧ pyStrip kv.2 = kv.2) := by
  have hinit2 : ∀ kv ∈ initPayload, Trimmed kv.2 := by
    intro kv hkv
    rw [initPayload_values kv hkv]
    exact trimmed_nil
  have hfold := serialize_fold_inv sections initPayload rfl hinit2
  have hfin := dictSet_prop_inv Trimmed _ (partKey 16) (pyStrip blocks_html)
    (by rw [hfold.1]; exact partKey_mem_initPayload 16 (by omega)) (trimmed_pyStrip _)
    hfold.2
  constructor
  · show (dictSet (sections.foldl serialize_step initPayload) (partKey 16)
      (pyStrip blocks_html)).map Prod.fst = _
    rw [hfin.1, hfold.1, initPayload_keys_lit]
  · intro kv hkv
    have htr := hfin.2 kv hkv
    by_cases h : kv.2 = []
    · exact Or.inl h
    · exact Or.inr ⟨h, pyStrip_eq_self kv.2 htr⟩

/-! ### Claim C6: duplicate ordinals -/

/-- C6 counterexample: two chunks carry the ordinal 1; the serialized
`part_1` differs from what serializing only the first chunk produces, so the
first occurrence does not alone determine the slot — first-wins fails. -/
theorem C6_counterexample :
    dictGet (serialize
        [⟨some 1, "A".data, "x".data, false⟩, ⟨some 1, "B".data, "y".data, false⟩] [])
      "part_1" [] ≠
    dictGet (serialize [⟨some 1, "A".data, "x".data, false⟩] []) "part_1" [] := by
  decide

/-- C6 (amended): duplicate ordinals do not overwrite, but neither does the
first occurrence win: the serializer appends.  For two chunks with the same
ordinal k in 1..15 and non-empty texts, `part_k` holds the first chunk's text
followed by a blank line and then the second chunk's text. -/
theorem C6_amended (s1 s2 : SectionChunk) (k : Nat)
    (hk1 : 1 ≤ k) (hk2 : k ≤ 15)
    (hn1 : s1.number = some k) (hn2 : s2.number = some k)
    (ht1 : section_to_text s1 ≠ []) (ht2 : section_to_text s2 ≠ [])
    (html : PyStr) :
    dictGet (serialize [s1, s2] html) (partKey k) [] =
      section_to_text s1 ++ '\n' :: '\n' :: section_to_text s2 := by
  have hne16 : partKey 16 ≠ partKey k := by
    interval_cases k <;> decide
  have hstep1 : serialize_step initPayload s1 =
      dictSet initPayload (partKey k) (section_to_text s1) := by
    rw [serialize_step_store initPayload s1 k hn1 hk1 hk2 ht1]
    rw [dictGet_of_all_values _ _ _ initPayload_values]
    simp [pyStrip, lstrip, rstrip, pyJoin, ht1]
  have hstep2 : serialize_step (dictSet initPayload (partKey k) (section_to_text s1)) s2 =
      dictSet (dictSet initPayload (partKey k) (section_to_text s1)) (partKey k)
        (section_to_text s1 ++ '\n' :: '\n' :: section_to_text s2) := by
    rw [serialize_step_store _ s2 k hn2 hk1 hk2 ht2]
    rw [dictGet_dictSet_self]
    rw [pyStrip_eq_self _ (trimmed_section_to_text s1)]
    simp [pyJoin, ht1, ht2]
  show dictGet (dictSet ([s1, s2].foldl serialize_step initPayload) (partKey 16)
    (pyStrip html)) (partKey k) [] = _
  rw [dictGet_dictSet_ne _ _ _ _ _ hne16]
  simp only [List.foldl_cons, List.foldl_nil]
  rw [hstep1, hstep2, dictGet_dictSet_self]

/-- C6 witness: the append behavior at two concrete duplicate chunks. -/
theorem C6_witness :
    dictGet (serialize
        [⟨some 1, "A".data, "x".data, false⟩, ⟨some 1, "B".data, "y".data, false⟩] [])
      (partKey 1) [] =
      section_to_text ⟨some 1, "A".data, "x".data, false⟩ ++ '\n' :: '\n' ::
        section_to_text ⟨some 1, "B".data, "y".data, false⟩ :=
  C6_amended ⟨some 1, "A".data, "x".data, false⟩ ⟨some 1, "B".data, "y".data, false⟩ 1
    (by decide) (by decide) rfl rfl (by decide) (by decide) []

/-! ### Claim C7: title and body separator -/

/-- C7 counterexample: a section with title T and body B serializes `part_1`
to the title and body joined by a single newline, not to the claimed title
line, blank line, body shape. -/
theorem C7_counterexample :
    dictGet (serialize [⟨some 1, "T".data, "B".data, false⟩] []) "part_1" [] ≠
      "T\n\nB".data := by
  decide

/-- C7 (amended): for a chunk with ordinal k in 1..15 whose title and content
are non-empty (also after stripping), `part_k` is the stripped title and the
stripped body joined by a single newline — no blank line separates them. -/
theorem C7_amended (k : Nat) (title content : PyStr) (b : Bool) (html : PyStr)
    (hk1 : 1 ≤ k) (hk2 : k ≤ 15)
    (htitle : title ≠ []) (hcontent : content ≠ [])
    (hst : pyStrip title ≠ []) (hsc : pyStrip content ≠ []) :
    dictGet (serialize [⟨some k, title, content, b⟩] html) (partKey k) [] =
      pyStrip title ++ '\n' :: pyStrip content := by
  have hsect : section_to_text ⟨some k, title, content, b⟩ =
      pyStrip title ++ '\n' :: pyStrip content := by
    have heq : section_to_text ⟨some k, title, content, b⟩ =
        pyJoin ['\n'] (((if title.isEmpty then [] else [pyStrip title]) ++
          (if content.isEmpty then [] else [pyStrip content])).filter
            (fun p => !p.isEmpty)) := rfl
    rw [heq]
    simp [List.isEmpty_iff, htitle, hcontent, hst, hsc, pyJoin]
  have ht : section_to_text ⟨some k, title, content, b⟩ ≠ [] := by
    rw [hsect]
    simp [hst]
  have hne16 : partKey 16 ≠ partKey k := by
    interval_cases k <;> decide
  show dictGet (dictSet ([(⟨some k, title, content, b⟩ : SectionChunk)].foldl
    serialize_step initPayload) (partKey 16) (pyStrip html)) (partKey k) [] = _
  rw [dictGet_dictSet_ne _ _ _ _ _ hne16]
  simp only [List.foldl_cons, List.foldl_nil]
  rw [serialize_step_store initPayload _ k rfl hk1 hk2 ht]
  rw [dictGet_of_all_values _ _ _ initPayload_values, dictGet_dictSet_self]
  simp [pyStrip, lstrip, rstrip, pyJoin, ht]
  exact hsect

/-- C7 witness: the single-newline join at a concrete chunk. -/
theorem C7_witness :
    dictGet (serialize [⟨some 1, "T".data, "B".data, false⟩] []) (partKey 1) [] =
      pyStrip "T".data ++ '\n' :: pyStrip "B".data :=
  C7_amended 1 "T".data "B".data false [] (by decide) (by decide) (by decide) (by decide)
    (by decide) (by decide)

end Compress.Slicer
